import Mathlib

/-!
Verification of the positioner-stack geometry engine of the grewgg
repository.  The source of truth is the sympy notebook
`sympy_notebooks/Positioners.ipynb` (symbols are real numbers, so vectors
are triples of reals and matrices carry real entries) together with the
configuration data in `grewgg/data/fable.yml`.  Components the notebook
announces but does not yet contain (the 3x3 matrix form of the axis/angle
rotation, and the positioner-stack composition driven by the YAML axis
records) are modelled from the design specification and marked as such in
their doc comments.
-/

noncomputable section

/-- A 3-vector with real components, mirroring a sympy `Matrix([x, y, z])`. -/
@[ext]
structure Vec3 where
  x : ℝ
  y : ℝ
  z : ℝ

instance : Add Vec3 := ⟨fun a b => ⟨a.x + b.x, a.y + b.y, a.z + b.z⟩⟩

instance : Sub Vec3 := ⟨fun a b => ⟨a.x - b.x, a.y - b.y, a.z - b.z⟩⟩

instance : Neg Vec3 := ⟨fun a => ⟨-a.x, -a.y, -a.z⟩⟩

instance : SMul ℝ Vec3 := ⟨fun c v => ⟨c * v.x, c * v.y, c * v.z⟩⟩

/-- The zero 3-vector. -/
def vzero : Vec3 := ⟨0, 0, 0⟩

/-- Dot product of 3-vectors, as sympy `a.dot(v)`. -/
def Vec3.dot (a b : Vec3) : ℝ := a.x * b.x + a.y * b.y + a.z * b.z

/-- Cross product of 3-vectors, as sympy `v.cross(a)`. -/
def Vec3.cross (a b : Vec3) : Vec3 :=
  ⟨a.y * b.z - a.z * b.y, a.z * b.x - a.x * b.z, a.x * b.y - a.y * b.x⟩

/-- The basis vector `X = sympy.Matrix([1,0,0])` from the notebook. -/
def X : Vec3 := ⟨1, 0, 0⟩

/-- The basis vector `Y = sympy.Matrix([0,1,0])` from the notebook. -/
def Y : Vec3 := ⟨0, 1, 0⟩

/-- The basis vector `Z = sympy.Matrix([0,0,1])` from the notebook. -/
def Z : Vec3 := ⟨0, 0, 1⟩

/-- A 3x3 matrix of reals stored by rows, mirroring the notebook symbol
matrix `U`. -/
@[ext]
structure Mat3 where
  r0 : Vec3
  r1 : Vec3
  r2 : Vec3

/-- First column of a 3x3 matrix. -/
def Mat3.col0 (M : Mat3) : Vec3 := ⟨M.r0.x, M.r1.x, M.r2.x⟩

/-- Second column of a 3x3 matrix. -/
def Mat3.col1 (M : Mat3) : Vec3 := ⟨M.r0.y, M.r1.y, M.r2.y⟩

/-- Third column of a 3x3 matrix. -/
def Mat3.col2 (M : Mat3) : Vec3 := ⟨M.r0.z, M.r1.z, M.r2.z⟩

/-- Transpose of a 3x3 matrix. -/
def Mat3.transpose (M : Mat3) : Mat3 := ⟨M.col0, M.col1, M.col2⟩

/-- Matrix product of two 3x3 matrices. -/
def Mat3.mul (A B : Mat3) : Mat3 :=
  ⟨⟨A.r0.dot B.col0, A.r0.dot B.col1, A.r0.dot B.col2⟩,
   ⟨A.r1.dot B.col0, A.r1.dot B.col1, A.r1.dot B.col2⟩,
   ⟨A.r2.dot B.col0, A.r2.dot B.col1, A.r2.dot B.col2⟩⟩

/-- Matrix-vector product for 3x3 matrices. -/
def Mat3.mulVec (M : Mat3) (v : Vec3) : Vec3 :=
  ⟨M.r0.dot v, M.r1.dot v, M.r2.dot v⟩

/-- Determinant of a 3x3 matrix, as the scalar triple product of its rows. -/
def Mat3.det (M : Mat3) : ℝ := M.r0.dot (M.r1.cross M.r2)

/-- The 3x3 identity matrix. -/
def mat3_id : Mat3 := ⟨⟨1, 0, 0⟩, ⟨0, 1, 0⟩, ⟨0, 0, 1⟩⟩

/-- Build a 3x3 matrix from its three columns. -/
def Mat3.fromCols (c0 c1 c2 : Vec3) : Mat3 :=
  ⟨⟨c0.x, c1.x, c2.x⟩, ⟨c0.y, c1.y, c2.y⟩, ⟨c0.z, c1.z, c2.z⟩⟩

/-- An augmented 4-vector, as the notebook `sympy.Matrix([x,y,z,1])` or
`sympy.Matrix([h,k,l,0])`. -/
@[ext]
structure Vec4 where
  x : ℝ
  y : ℝ
  z : ℝ
  w : ℝ

/-- Dot product of 4-vectors. -/
def Vec4.dot (a b : Vec4) : ℝ := a.x * b.x + a.y * b.y + a.z * b.z + a.w * b.w

/-- Augment a 3-vector with a trailing homogeneous component. -/
def aug (v : Vec3) (c : ℝ) : Vec4 := ⟨v.x, v.y, v.z, c⟩

/-- A 4x4 homogeneous transform matrix stored by rows. -/
@[ext]
structure Mat4 where
  r0 : Vec4
  r1 : Vec4
  r2 : Vec4
  r3 : Vec4

/-- First column of a 4x4 matrix. -/
def Mat4.col0 (M : Mat4) : Vec4 := ⟨M.r0.x, M.r1.x, M.r2.x, M.r3.x⟩

/-- Second column of a 4x4 matrix. -/
def Mat4.col1 (M : Mat4) : Vec4 := ⟨M.r0.y, M.r1.y, M.r2.y, M.r3.y⟩

/-- Third column of a 4x4 matrix. -/
def Mat4.col2 (M : Mat4) : Vec4 := ⟨M.r0.z, M.r1.z, M.r2.z, M.r3.z⟩

/-- Fourth column of a 4x4 matrix. -/
def Mat4.col3 (M : Mat4) : Vec4 := ⟨M.r0.w, M.r1.w, M.r2.w, M.r3.w⟩

/-- Matrix product of two 4x4 matrices. -/
def Mat4.mul (A B : Mat4) : Mat4 :=
  ⟨⟨A.r0.dot B.col0, A.r0.dot B.col1, A.r0.dot B.col2, A.r0.dot B.col3⟩,
   ⟨A.r1.dot B.col0, A.r1.dot B.col1, A.r1.dot B.col2, A.r1.dot B.col3⟩,
   ⟨A.r2.dot B.col0, A.r2.dot B.col1, A.r2.dot B.col2, A.r2.dot B.col3⟩,
   ⟨A.r3.dot B.col0, A.r3.dot B.col1, A.r3.dot B.col2, A.r3.dot B.col3⟩⟩

/-- Matrix-vector product for 4x4 matrices, as the notebook `mat4_full * X`. -/
def Mat4.mulVec (M : Mat4) (v : Vec4) : Vec4 :=
  ⟨M.r0.dot v, M.r1.dot v, M.r2.dot v, M.r3.dot v⟩

/-- The 4x4 identity matrix. -/
def mat4_id : Mat4 :=
  ⟨⟨1, 0, 0, 0⟩, ⟨0, 1, 0, 0⟩, ⟨0, 0, 1, 0⟩, ⟨0, 0, 0, 1⟩⟩

/-- The notebook function `make_mat4(U, t)`: assemble the homogeneous
transform `[[U, t], [0, 1]]` from a 3x3 linear part and a translation. -/
def make_mat4 (U : Mat3) (t : Vec3) : Mat4 :=
  ⟨⟨U.r0.x, U.r0.y, U.r0.z, t.x⟩,
   ⟨U.r1.x, U.r1.y, U.r1.z, t.y⟩,
   ⟨U.r2.x, U.r2.y, U.r2.z, t.z⟩,
   ⟨0, 0, 0, 1⟩⟩

/-- The notebook formula
`vrot1 = cosOmega*v + sinOmega*(v.cross(a)) + (1-cosOmega)*(a.dot(v))*a`. -/
def vrot1 (a v : Vec3) (Omega : ℝ) : Vec3 :=
  Real.cos Omega • v + Real.sin Omega • (v.cross a) +
    ((1 - Real.cos Omega) * (a.dot v)) • a

/-- The notebook rearrangement
`vrot2 = sinOmega*v.cross(a) + cosOmega*(v - (a.dot(v))*a) + a.dot(v)*a`. -/
def vrot2 (a v : Vec3) (Omega : ℝ) : Vec3 :=
  Real.sin Omega • (v.cross a) + Real.cos Omega • (v - (a.dot v) • a) +
    (a.dot v) • a

/-- The notebook function `axis_angle_rotation(vec, axis, angle)`:
`cosa*vec + sina*(axis.cross(vec)) + (1-cosa)*(axis.dot(vec))*axis`. -/
def axis_angle_rotation (vec axis : Vec3) (angle : ℝ) : Vec3 :=
  Real.cos angle • vec + Real.sin angle • (axis.cross vec) +
    ((1 - Real.cos angle) * (axis.dot vec)) • axis

/-- Modelled from the spec: the companion 3x3 matrix form of `R(a, angle)`,
obtained by applying `axis_angle_rotation` to the three basis vectors.  The
notebook announces this conversion but its final cell is empty. -/
def axis_angle_matrix (axis : Vec3) (angle : ℝ) : Mat3 :=
  Mat3.fromCols (axis_angle_rotation X axis angle)
    (axis_angle_rotation Y axis angle)
    (axis_angle_rotation Z axis angle)

/-- Modelled from the spec: the closed set of axis kinds appearing in the
YAML axis records (`type : translation | rotation | scale | positioner`). -/
inductive AxisKind where
  | translation
  | rotation
  | scale
  | positioner
deriving DecidableEq

/-- Modelled from the spec: one YAML axis record such as
`{type : translation, name : ffdtx1, axis : [1.0, 0.0, 0.0], pos : 20.0}`.
The `pos` field is the optional configured default motor value; `lit` is the
literal matrix carried by a `positioner` record and ignored otherwise. -/
structure Axis where
  name : String
  kind : AxisKind
  axis : Vec3
  pos : Option ℝ
  lit : Mat4

/-- Modelled from the spec: resolve the motor value of one axis, taking the
supplied runtime value when present and otherwise the configured default. -/
def resolveValue (m : String → Option ℝ) (ax : Axis) : Option ℝ :=
  match m ax.name with
  | some v => some v
  | none => ax.pos

/-- Modelled from the spec: the error taxonomy of the geometry engine. -/
inductive GeomError where
  | DegenerateAxis (axisName : String)
  | MissingMotorValue (axisName : String)
deriving DecidableEq

/-- Modelled from the spec: build the homogeneous transform of a single axis
from its record and resolved motor value.  A translation uses
`t = motor_value * direction` with identity linear part; a rotation
normalizes its direction (signalling `DegenerateAxis` for a zero direction)
and uses the axis/angle matrix; a scale sets the diagonal entries selected
by the nonzero components of the direction; a `positioner` copies its
literal matrix. -/
def axisTransform (ax : Axis) (value : ℝ) : Except GeomError Mat4 :=
  match ax.kind with
  | AxisKind.translation => Except.ok (make_mat4 mat3_id (value • ax.axis))
  | AxisKind.rotation =>
    if ax.axis.dot ax.axis = 0 then
      Except.error (GeomError.DegenerateAxis ax.name)
    else
      Except.ok (make_mat4
        (axis_angle_matrix ((1 / Real.sqrt (ax.axis.dot ax.axis)) • ax.axis)
          value) vzero)
  | AxisKind.scale =>
    Except.ok (make_mat4
      ⟨⟨(if ax.axis.x = 0 then 1 else value), 0, 0⟩,
       ⟨0, (if ax.axis.y = 0 then 1 else value), 0⟩,
       ⟨0, 0, (if ax.axis.z = 0 then 1 else value)⟩⟩ vzero)
  | AxisKind.positioner => Except.ok ax.lit

/-- Modelled from the spec: resolve the motor values of every axis of a
stack in declared order, failing with `MissingMotorValue` at the first axis
with neither a supplied value nor a default. -/
def resolveAll (m : String → Option ℝ) : List Axis → Except GeomError (List (Axis × ℝ))
  | [] => Except.ok []
  | ax :: rest =>
    match resolveValue m ax with
    | none => Except.error (GeomError.MissingMotorValue ax.name)
    | some v =>
      match resolveAll m rest with
      | Except.error e => Except.error e
      | Except.ok tail => Except.ok ((ax, v) :: tail)

/-- Modelled from the spec: multiply the individual axis transforms in
declared order, `T = T1 * T2 * ... * Tn`. -/
def composeTransforms : List (Axis × ℝ) → Except GeomError Mat4
  | [] => Except.ok mat4_id
  | (ax, v) :: rest =>
    match axisTransform ax v with
    | Except.error e => Except.error e
    | Except.ok T =>
      match composeTransforms rest with
      | Except.error e => Except.error e
      | Except.ok R => Except.ok (T.mul R)

/-- Modelled from the spec: compose a positioner stack for one motor-value
set, with no partial result on failure. -/
def composeStack (axes : List Axis) (m : String → Option ℝ) : Except GeomError Mat4 :=
  match resolveAll m axes with
  | Except.error e => Except.error e
  | Except.ok pairs => composeTransforms pairs

/-- Whether a fallible geometry computation succeeded. -/
def isOkE {α : Type} : Except GeomError α → Bool
  | Except.ok _ => true
  | Except.error _ => false

/-- The `ffdtx1` record of the `FF_Detector_Mount` stack in `fable.yml`:
`{type : translation, name : ffdtx1, axis : [1.0, 0.0, 0.0], pos : 20.0}`. -/
def axis_ffdtx1 : Axis := ⟨"ffdtx1", AxisKind.translation, ⟨1, 0, 0⟩, some 20, mat4_id⟩

/-- The `ffdtz1` record of the `FF_Detector_Mount` stack in `fable.yml`:
`{name : ffdtz1, type : translation, axis : [0.0, 0.0, 1.0]}` (no default). -/
def axis_ffdtz1 : Axis := ⟨"ffdtz1", AxisKind.translation, ⟨0, 0, 1⟩, none, mat4_id⟩

end

@[simp] theorem Vec3.add_x (a b : Vec3) : (a + b).x = a.x + b.x := rfl

@[simp] theorem Vec3.add_y (a b : Vec3) : (a + b).y = a.y + b.y := rfl

@[simp] theorem Vec3.add_z (a b : Vec3) : (a + b).z = a.z + b.z := rfl

@[simp] theorem Vec3.sub_x (a b : Vec3) : (a - b).x = a.x - b.x := rfl

@[simp] theorem Vec3.sub_y (a b : Vec3) : (a - b).y = a.y - b.y := rfl

@[simp] theorem Vec3.sub_z (a b : Vec3) : (a - b).z = a.z - b.z := rfl

@[simp] theorem Vec3.neg_x (a : Vec3) : (-a).x = -a.x := rfl

@[simp] theorem Vec3.neg_y (a : Vec3) : (-a).y = -a.y := rfl

@[simp] theorem Vec3.neg_z (a : Vec3) : (-a).z = -a.z := rfl

@[simp] theorem Vec3.smul_x (c : ℝ) (v : Vec3) : (c • v).x = c * v.x := rfl

@[simp] theorem Vec3.smul_y (c : ℝ) (v : Vec3) : (c • v).y = c * v.y := rfl

@[simp] theorem Vec3.smul_z (c : ℝ) (v : Vec3) : (c • v).z = c * v.z := rfl

/-- Claim C1 (counterexample): the claim's first form writes the cross
product as `a x v` (which is the `axis_angle_rotation` formula) while its
second form writes `v x a` (which is `vrot2`); at `a = Z`, `v = X`,
`angle = pi/2` the two quoted forms give `Y` and `-Y` and so are not the
identical result vector. -/
theorem axis_angle_rotation_ne_vrot2_quarter_turn :
    axis_angle_rotation X Z (Real.pi / 2) ≠ vrot2 Z X (Real.pi / 2) := by
  intro h
  have hy := congrArg Vec3.y h
  norm_num [axis_angle_rotation, vrot2, X, Z, Vec3.dot, Vec3.cross,
    Real.cos_pi_div_two, Real.sin_pi_div_two] at hy

/-- Claim C1 (amended): the two forms the notebook actually checks, both
with cross product `v x a` — the Rodrigues form `vrot1` and the
perpendicular/parallel rearrangement `vrot2` — agree for every axis `a`,
angle and vector `v`. -/
theorem vrot1_eq_vrot2 (a v : Vec3) (Omega : ℝ) :
    vrot1 a v Omega = vrot2 a v Omega := by
  ext <;> simp [vrot1, vrot2, Vec3.dot, Vec3.cross] <;> ring

/-- Claim C2: `axis_angle_rotation` is right-handed: rotating `X` by +90
degrees about `Z` gives `+Y`, rotating `Y` gives `-X`, and `Z` is fixed by
every rotation about `Z`. -/
theorem axis_angle_rotation_right_handed :
    axis_angle_rotation X Z (Real.pi / 2) = Y
      ∧ axis_angle_rotation Y Z (Real.pi / 2) = -X
      ∧ ∀ angle : ℝ, axis_angle_rotation Z Z angle = Z := by
  refine ⟨?_, ?_, ?_⟩
  · ext <;> norm_num [axis_angle_rotation, X, Y, Z, Vec3.dot, Vec3.cross,
      Real.cos_pi_div_two, Real.sin_pi_div_two]
  · ext <;> norm_num [axis_angle_rotation, X, Y, Z, Vec3.dot, Vec3.cross,
      Real.cos_pi_div_two, Real.sin_pi_div_two]
  · intro angle
    ext <;> simp [axis_angle_rotation, Z, Vec3.dot, Vec3.cross]

/-- Claim C3 (counterexample): `axis_angle_rotation` does not normalize its
axis: doubling the axis `Z` changes the image of `X` under a quarter turn
from `(0,1,0)` to `(0,2,0)`, refuting `R(c*a, angle) = R(a, angle)` at
`c = 2`. -/
theorem axis_angle_rotation_scaled_axis_differs :
    axis_angle_rotation X ((2 : ℝ) • Z) (Real.pi / 2)
      ≠ axis_angle_rotation X Z (Real.pi / 2) := by
  intro h
  have hy := congrArg Vec3.y h
  norm_num [axis_angle_rotation, X, Z, Vec3.dot, Vec3.cross,
    Real.cos_pi_div_two, Real.sin_pi_div_two] at hy

/-- Claim C3 (amended): `axis_angle_rotation` applies the formula to the
axis exactly as supplied, with no internal normalization and no error:
scaling the axis by `c` multiplies the cross term by `c` and the parallel
term by `c^2`, and a zero axis yields `cos(angle) * v` instead of
signalling a degenerate-axis error. -/
theorem axis_angle_rotation_no_normalization (a v : Vec3) (angle c : ℝ) :
    axis_angle_rotation v (c • a) angle
        = Real.cos angle • v + (c * Real.sin angle) • (a.cross v)
          + (c ^ 2 * ((1 - Real.cos angle) * (a.dot v))) • a
      ∧ axis_angle_rotation v vzero angle = Real.cos angle • v := by
  constructor
  · ext <;> simp [axis_angle_rotation, Vec3.dot, Vec3.cross] <;> ring
  · ext <;> simp [axis_angle_rotation, vzero, Vec3.dot, Vec3.cross]

/-- Claim C4: the homogeneous transform `make_mat4 U t` sends `[x, 1]` to
`[U*x + t, 1]` and `[x, 0]` to `[U*x, 0]`, and the trailing homogeneous
component of the output always equals that of the input. -/
theorem make_mat4_augmented (U : Mat3) (t v : Vec3) :
    (make_mat4 U t).mulVec (aug v 1) = aug (U.mulVec v + t) 1
      ∧ (make_mat4 U t).mulVec (aug v 0) = aug (U.mulVec v) 0
      ∧ ∀ c : ℝ, ((make_mat4 U t).mulVec (aug v c)).w = c := by
  refine ⟨?_, ?_, ?_⟩
  · ext <;> simp [make_mat4, Mat4.mulVec, Mat3.mulVec, aug, Vec4.dot, Vec3.dot]
  · ext <;> simp [make_mat4, Mat4.mulVec, Mat3.mulVec, aug, Vec4.dot, Vec3.dot]
  · intro c
    simp [make_mat4, Mat4.mulVec, aug, Vec4.dot]

/-- Claim C8: the notebook's checked formula `vrot1` equals
`axis_angle_rotation` at the negated angle: the `vrot1`/`vrot2` pair and
the exported function describe rotations of opposite sense, differing
exactly by the sign of the angle. -/
theorem vrot1_eq_axis_angle_rotation_neg_angle (a v : Vec3) (Omega : ℝ) :
    vrot1 a v Omega = axis_angle_rotation v a (-Omega) := by
  ext <;> simp [vrot1, axis_angle_rotation, Vec3.dot, Vec3.cross,
    Real.cos_neg, Real.sin_neg] <;> ring

/-- Claim C10: `axis_angle_rotation` is linear in the rotated vector, and
therefore the companion 3x3 matrix built from the images of the basis
vectors represents the same map. -/
theorem axis_angle_rotation_linear (a u w : Vec3) (angle al be : ℝ) :
    axis_angle_rotation (al • u + be • w) a angle
        = al • axis_angle_rotation u a angle
          + be • axis_angle_rotation w a angle
      ∧ ∀ v : Vec3, (axis_angle_matrix a angle).mulVec v
          = axis_angle_rotation v a angle := by
  constructor
  · ext <;> simp [axis_angle_rotation, Vec3.dot, Vec3.cross] <;> ring
  · intro v
    ext <;> simp [axis_angle_matrix, axis_angle_rotation, Mat3.fromCols,
      Mat3.mulVec, X, Y, Z, Vec3.dot, Vec3.cross] <;> ring

/-- For a unit axis the rotation formula preserves dot products; this is the
entrywise content of orthogonality of the companion matrix. -/
theorem aar_dot_aar (a v w : Vec3) (angle : ℝ) (hn : a.dot a = 1) :
    (axis_angle_rotation v a angle).dot (axis_angle_rotation w a angle)
      = v.dot w := by
  have pyth := Real.sin_sq_add_cos_sq angle
  have hn' : a.x * a.x + a.y * a.y + a.z * a.z = 1 := hn
  simp only [axis_angle_rotation, Vec3.dot, Vec3.cross, Vec3.add_x, Vec3.add_y,
    Vec3.add_z, Vec3.smul_x, Vec3.smul_y, Vec3.smul_z]
  linear_combination
    ((v.x * w.x + v.y * w.y + v.z * w.z)
        - (a.x * v.x + a.y * v.y + a.z * v.z)
          * (a.x * w.x + a.y * w.y + a.z * w.z)) * pyth
    + (Real.sin angle ^ 2 * (v.x * w.x + v.y * w.y + v.z * w.z)
        + (1 - Real.cos angle) ^ 2 * (a.x * v.x + a.y * v.y + a.z * v.z)
          * (a.x * w.x + a.y * w.y + a.z * w.z)) * hn'

/-- Claim C5: for every unit axis and angle, the 3x3 matrix obtained by
applying `axis_angle_rotation` to the three basis vectors is orthogonal and
has determinant +1. -/
theorem axis_angle_matrix_orthogonal_det (a : Vec3) (angle : ℝ)
    (hn : a.dot a = 1) :
    (axis_angle_matrix a angle).transpose.mul (axis_angle_matrix a angle)
        = mat3_id
      ∧ (axis_angle_matrix a angle).det = 1 := by
  constructor
  · ext
    · show (axis_angle_rotation X a angle).dot (axis_angle_rotation X a angle)
        = (1 : ℝ)
      rw [aar_dot_aar a X X angle hn]; norm_num [X, Vec3.dot]
    · show (axis_angle_rotation X a angle).dot (axis_angle_rotation Y a angle)
        = (0 : ℝ)
      rw [aar_dot_aar a X Y angle hn]; norm_num [X, Y, Vec3.dot]
    · show (axis_angle_rotation X a angle).dot (axis_angle_rotation Z a angle)
        = (0 : ℝ)
      rw [aar_dot_aar a X Z angle hn]; norm_num [X, Z, Vec3.dot]
    · show (axis_angle_rotation Y a angle).dot (axis_angle_rotation X a angle)
        = (0 : ℝ)
      rw [aar_dot_aar a Y X angle hn]; norm_num [X, Y, Vec3.dot]
    · show (axis_angle_rotation Y a angle).dot (axis_angle_rotation Y a angle)
        = (1 : ℝ)
      rw [aar_dot_aar a Y Y angle hn]; norm_num [Y, Vec3.dot]
    · show (axis_angle_rotation Y a angle).dot (axis_angle_rotation Z a angle)
        = (0 : ℝ)
      rw [aar_dot_aar a Y Z angle hn]; norm_num [Y, Z, Vec3.dot]
    · show (axis_angle_rotation Z a angle).dot (axis_angle_rotation X a angle)
        = (0 : ℝ)
      rw [aar_dot_aar a Z X angle hn]; norm_num [X, Z, Vec3.dot]
    · show (axis_angle_rotation Z a angle).dot (axis_angle_rotation Y a angle)
        = (0 : ℝ)
      rw [aar_dot_aar a Z Y angle hn]; norm_num [Y, Z, Vec3.dot]
    · show (axis_angle_rotation Z a angle).dot (axis_angle_rotation Z a angle)
        = (1 : ℝ)
      rw [aar_dot_aar a Z Z angle hn]; norm_num [Z, Vec3.dot]
  · have pyth := Real.sin_sq_add_cos_sq angle
    have hn' : a.x * a.x + a.y * a.y + a.z * a.z = 1 := hn
    simp only [axis_angle_matrix, axis_angle_rotation, Mat3.fromCols, Mat3.det,
      X, Y, Z, Vec3.dot, Vec3.cross, Vec3.add_x, Vec3.add_y, Vec3.add_z,
      Vec3.smul_x, Vec3.smul_y, Vec3.smul_z]
    linear_combination
      (1 + (1 - Real.cos angle) * ((a.x ^ 2 + a.y ^ 2 + a.z ^ 2) - 1)) * pyth
      + (Real.sin angle ^ 2 + (1 - Real.cos angle)
          + (1 - Real.cos angle) * Real.sin angle ^ 2
            * ((a.x ^ 2 + a.y ^ 2 + a.z ^ 2) - 1)) * hn'

/-- Witness for C5 at the concrete unit axis `Z` and angle `0`. -/
theorem axis_angle_matrix_orthogonal_det_witness :
    Vec3.dot Z Z = 1
      ∧ ((axis_angle_matrix Z 0).transpose.mul (axis_angle_matrix Z 0)
           = mat3_id
          ∧ (axis_angle_matrix Z 0).det = 1) :=
  ⟨by norm_num [Z, Vec3.dot],
   axis_angle_matrix_orthogonal_det Z 0 (by norm_num [Z, Vec3.dot])⟩

/-- Claim C9: for a unit axis, successive rotations about the same axis
compose by adding their angles. -/
theorem axis_angle_rotation_add_angles (a v : Vec3) (th ph : ℝ)
    (hn : a.dot a = 1) :
    axis_angle_rotation (axis_angle_rotation v a ph) a th
      = axis_angle_rotation v a (th + ph) := by
  have hn' : a.x * a.x + a.y * a.y + a.z * a.z = 1 := hn
  ext
  · simp only [axis_angle_rotation, Real.cos_add, Real.sin_add, Vec3.dot,
      Vec3.cross, Vec3.add_x, Vec3.add_y, Vec3.add_z, Vec3.smul_x, Vec3.smul_y,
      Vec3.smul_z]
    linear_combination
      (-(Real.sin th * Real.sin ph) * v.x
        + (1 - Real.cos th) * (1 - Real.cos ph)
          * (a.x * v.x + a.y * v.y + a.z * v.z) * a.x) * hn'
  · simp only [axis_angle_rotation, Real.cos_add, Real.sin_add, Vec3.dot,
      Vec3.cross, Vec3.add_x, Vec3.add_y, Vec3.add_z, Vec3.smul_x, Vec3.smul_y,
      Vec3.smul_z]
    linear_combination
      (-(Real.sin th * Real.sin ph) * v.y
        + (1 - Real.cos th) * (1 - Real.cos ph)
          * (a.x * v.x + a.y * v.y + a.z * v.z) * a.y) * hn'
  · simp only [axis_angle_rotation, Real.cos_add, Real.sin_add, Vec3.dot,
      Vec3.cross, Vec3.add_x, Vec3.add_y, Vec3.add_z, Vec3.smul_x, Vec3.smul_y,
      Vec3.smul_z]
    linear_combination
      (-(Real.sin th * Real.sin ph) * v.z
        + (1 - Real.cos th) * (1 - Real.cos ph)
          * (a.x * v.x + a.y * v.y + a.z * v.z) * a.z) * hn'

/-- Witness for C9 at the concrete unit axis `Z`, vector `X` and angles
`0` and `0`. -/
theorem axis_angle_rotation_add_angles_witness :
    Vec3.dot Z Z = 1
      ∧ axis_angle_rotation (axis_angle_rotation X Z 0) Z 0
          = axis_angle_rotation X Z (0 + 0) :=
  ⟨by norm_num [Z, Vec3.dot],
   axis_angle_rotation_add_angles Z X 0 0 (by norm_num [Z, Vec3.dot])⟩

/-- A 3-vector has zero dot product with itself exactly when it is zero. -/
theorem dot_self_eq_zero_iff (a : Vec3) : a.dot a = 0 ↔ a = vzero := by
  constructor
  · intro h
    have h' : a.x * a.x + a.y * a.y + a.z * a.z = 0 := h
    have hx : a.x = 0 := by nlinarith [mul_self_nonneg a.y, mul_self_nonneg a.z]
    have hy : a.y = 0 := by nlinarith [mul_self_nonneg a.x, mul_self_nonneg a.z]
    have hz : a.z = 0 := by nlinarith [mul_self_nonneg a.x, mul_self_nonneg a.y]
    ext <;> simp [vzero, hx, hy, hz]
  · intro h
    subst h
    norm_num [Vec3.dot, vzero]

/-- Every axis kind with a non-degenerate direction yields a transform. -/
theorem axisTransform_ok (ax : Axis) (v : ℝ) (h : ax.axis ≠ vzero) :
    isOkE (axisTransform ax v) = true := by
  obtain ⟨name, kind, axv, pos, lit⟩ := ax
  have hd : axv.dot axv ≠ 0 := fun hdd => h ((dot_self_eq_zero_iff axv).mp hdd)
  cases kind
  · rfl
  · simp only [axisTransform]
    rw [if_neg hd]
    rfl
  · rfl
  · rfl

/-- Composing the transforms of axes with non-degenerate directions
succeeds. -/
theorem composeTransforms_ok (ps : List (Axis × ℝ))
    (h : ∀ p ∈ ps, p.1.axis ≠ vzero) :
    isOkE (composeTransforms ps) = true := by
  induction ps with
  | nil => rfl
  | cons p rest ih =>
    obtain ⟨ax, v⟩ := p
    have ht := axisTransform_ok ax v (h (ax, v) (List.mem_cons_self _ _))
    have hr := ih fun q hq => h q (List.mem_cons_of_mem _ hq)
    simp only [composeTransforms]
    cases hT : axisTransform ax v with
    | error e => rw [hT] at ht; simp [isOkE] at ht
    | ok T =>
      cases hR : composeTransforms rest with
      | error e => rw [hR] at hr; simp [isOkE] at hr
      | ok R => rfl

/-- When the first axis whose motor value does not resolve is `ax`,
resolution of the whole stack fails naming `ax`. -/
theorem resolveAll_error_of_find (m : String → Option ℝ) (axes : List Axis)
    (ax : Axis)
    (h : axes.find? (fun a => (resolveValue m a).isNone) = some ax) :
    resolveAll m axes = Except.error (GeomError.MissingMotorValue ax.name) := by
  induction axes with
  | nil => simp [List.find?] at h
  | cons b rest ih =>
    cases hb : (resolveValue m b).isNone
    · rw [List.find?_cons_of_neg _ (by simp [hb])] at h
      cases hrb : resolveValue m b with
      | none => rw [hrb] at hb; simp at hb
      | some v => simp only [resolveAll, hrb, ih h]
    · rw [List.find?_cons_of_pos _ (by simp [hb])] at h
      injection h with h
      subst h
      have hrb : resolveValue m b = none := by
        cases hrb : resolveValue m b
        · rfl
        · rw [hrb] at hb; simp at hb
      simp only [resolveAll, hrb]

/-- When every axis of the stack resolves, resolution succeeds and returns
only axes of the stack. -/
theorem resolveAll_ok (m : String → Option ℝ) (axes : List Axis)
    (h : ∀ a ∈ axes, resolveValue m a ≠ none) :
    ∃ ps, resolveAll m axes = Except.ok ps ∧ ∀ p ∈ ps, p.1 ∈ axes := by
  induction axes with
  | nil => exact ⟨[], rfl, by simp⟩
  | cons ax rest ih =>
    have h1 : resolveValue m ax ≠ none := h ax (List.mem_cons_self _ _)
    obtain ⟨v, hv⟩ : ∃ v, resolveValue m ax = some v := by
      cases hrv : resolveValue m ax with
      | none => exact absurd hrv h1
      | some v => exact ⟨v, rfl⟩
    obtain ⟨ps, hps, hmem⟩ := ih fun a ha => h a (List.mem_cons_of_mem _ ha)
    refine ⟨(ax, v) :: ps, ?_, ?_⟩
    · simp only [resolveAll, hv, hps]
    · intro p hp
      rcases List.mem_cons.mp hp with h | h
      · subst h; exact List.mem_cons_self _ _
      · exact List.mem_cons_of_mem _ (hmem p h)

/-- Claim C7: if some axis of the stack has neither a supplied motor value
nor a configured default (the first such axis being `ax`), composition
fails with `MissingMotorValue` naming that axis and no transform is
returned; if every axis resolves (and, per the data-model invariant, every
direction is non-zero), composition succeeds. -/
theorem composeStack_motor_resolution (axes : List Axis)
    (m : String → Option ℝ) (ax : Axis) :
    (axes.find? (fun a => (resolveValue m a).isNone) = some ax →
        composeStack axes m
          = Except.error (GeomError.MissingMotorValue ax.name))
      ∧ ((∀ a ∈ axes, a.axis ≠ vzero) → (∀ a ∈ axes, resolveValue m a ≠ none) →
          isOkE (composeStack axes m) = true) := by
  constructor
  · intro h
    unfold composeStack
    rw [resolveAll_error_of_find m axes ax h]
  · intro hnz hres
    obtain ⟨ps, hps, hmem⟩ := resolveAll_ok m axes hres
    unfold composeStack
    rw [hps]
    exact composeTransforms_ok ps fun p hp => hnz p.1 (hmem p hp)

/-- Witness for C7: with no runtime motor values, the default-less stack
`[ffdtz1]` fails naming `ffdtz1`, while the stack `[ffdtx1]` (default
`pos : 20.0`) composes successfully. -/
theorem composeStack_motor_resolution_witness :
    List.find? (fun a => (resolveValue (fun _ => none) a).isNone) [axis_ffdtz1]
        = some axis_ffdtz1
      ∧ composeStack [axis_ffdtz1] (fun _ => none)
          = Except.error (GeomError.MissingMotorValue "ffdtz1")
      ∧ isOkE (composeStack [axis_ffdtx1] (fun _ => none)) = true := by
  refine ⟨rfl, ?_, ?_⟩
  · exact (composeStack_motor_resolution [axis_ffdtz1] (fun _ => none)
      axis_ffdtz1).1 rfl
  · refine (composeStack_motor_resolution [axis_ffdtx1] (fun _ => none)
      axis_ffdtx1).2 ?_ ?_
    · intro a ha
      rw [List.mem_singleton] at ha
      subst ha
      intro hcontra
      have hx := congrArg Vec3.x hcontra
      norm_num [axis_ffdtx1, vzero] at hx
    · intro a ha
      rw [List.mem_singleton] at ha
      subst ha
      simp [resolveValue, axis_ffdtx1]

/-- Claim C6: the single-translation stack built from the `ffdtx1` record
(`axis [1,0,0]`, default `pos : 20.0`), composed with no runtime motor
value and applied to the position vector `[0,0,0,1]`, yields `[20,0,0,1]`. -/
theorem single_translation_default_pos :
    Except.map (fun T => T.mulVec (⟨0, 0, 0, 1⟩ : Vec4))
        (composeStack [axis_ffdtx1] (fun _ => none))
      = Except.ok (⟨20, 0, 0, 1⟩ : Vec4) := by
  norm_num [composeStack, resolveAll, resolveValue, composeTransforms,
    axisTransform, axis_ffdtx1, Except.map, Mat4.mul, Mat4.mulVec, make_mat4,
    mat3_id, mat4_id, Mat4.col0, Mat4.col1, Mat4.col2, Mat4.col3, Vec4.dot]
